import Mathlib

/-
A shallow embedding of the lazarus-bazmon-server Go program (src/main.go):
the search-query dedup and orchestration, the reload of the monitor ini
file, the monitor polling step over the monitor results CSV, the Bazaar
URL builder, the scrape-row extraction and the monitor term translation.
CSV files are modelled as lists of rows, Go maps as association lists,
and the remote HTTP fetch as an explicit oracle parameter.
-/

namespace BazMon

/-- A key/value search term, mirroring type SearchTerm (main.go 42-45). -/
structure SearchTerm where
  Key : String
  Val : String
deriving DecidableEq

/-- Outcome of the remote fetch inside queryBazaar for one request:
err models a failed page load or HTML query (the error return paths of
main.go 338-360, after which both callers discard the rows), and ok rows
models a successful scrape whose final queryID-prefixed row list is
rows. -/
inductive QueryResult where
  | err : QueryResult
  | ok (rows : List (List String)) : QueryResult
deriving DecidableEq

/-- Go map read with a default, mirroring getSearchQuery
(main.go 562-569): the stored value, or the empty string when absent. -/
def mapGetD : List (String × String) → String → String → String
  | [], _, d => d
  | p :: rest, k, d => if p.1 = k then p.2 else mapGetD rest k d

/-- Go map update (m[k] = v), modelled on association lists: overwrite
the existing binding or append a new one. -/
def mapInsert : List (String × String) → String → String → List (String × String)
  | [], k, v => [(k, v)]
  | p :: rest, k, v => if p.1 = k then (k, v) :: rest else p :: mapInsert rest k v

/-- The in-memory and on-file state relevant to the search side: the
searchQueries dedup map (main.go 33), the monitorQueries map
(main.go 34), the monitorPollDelay global (main.go 38), and the rows of
the search results CSV file. -/
structure ServerState where
  searchQueries : List (String × String)
  monitorQueries : List (String × String)
  pollDelay : Int
  searchStore : List (List String)
deriving DecidableEq

/-- Header row written by writeSearchCSVHeader and writeMonitorCSVHeader
(main.go 448, 470). -/
def csvHeader : List String := ["QueryID", "Item", "Price", "Seller"]

/-- State after main's startup sequence (main.go 105-111): empty maps,
default poll delay 600, and the search results file truncated and
rewritten with the header row. -/
def initialState : ServerState :=
  { searchQueries := [], monitorQueries := [], pollDelay := 600, searchStore := [csvHeader] }

/-- One search request as handed to processSearchQueries: the ini key
name (query ID), the raw ini value, and the oracle for what the remote
fetch returns when the orchestrator reaches this request. -/
abbrev SearchReq := String × String × QueryResult

/-- The rows a query outcome contributes to the search store: none on
error, the returned rows on success. -/
def resRows : QueryResult → List (List String)
  | QueryResult.err => []
  | QueryResult.ok rows => rows

/-- The state effect of processing one non-duplicate search request
(main.go 239-260): record ID to raw content in the dedup map, then issue
the remote query; on error continue without writing, on success append
the returned rows to the search results CSV. -/
def psqStep (st : ServerState) (id content : String) (res : QueryResult) : ServerState :=
  let st1 := { st with searchQueries := mapInsert st.searchQueries id content }
  match res with
  | QueryResult.err => st1
  | QueryResult.ok rows => { st1 with searchStore := st1.searchStore ++ rows }

/-- processSearchQueries (main.go 227-262): for each key, skip when the
dedup map already holds a non-empty value for the ID; otherwise apply
the psqStep state effect.  Also returns the list of IDs for which the
remote query was actually issued, in order. -/
def processSearchQueries : List SearchReq → ServerState → ServerState × List String
  | [], st => (st, [])
  | (id, content, res) :: rest, st =>
    if mapGetD st.searchQueries id "" ≠ "" then
      processSearchQueries rest st
    else
      ((processSearchQueries rest (psqStep st id content res)).1,
       id :: (processSearchQueries rest (psqStep st id content res)).2)

/-- Value of a decimal digit string, or none when empty or containing a
non-digit. -/
def digitsVal? : List Char → Option Nat
  | [] => none
  | cs =>
    if cs.all Char.isDigit then
      some (cs.foldl (fun a c => a * 10 + (c.toNat - 48)) 0)
    else none

def int64Max : Int := 9223372036854775807

/-- strconv.ParseInt(s, 10, 64) as used by the ini reader's Key.Int on
the poll-delay value: the parsed value together with an ok flag.  On a
syntax error the returned value is 0; on 64-bit range overflow it is the
clamped bound (Go returns these values together with a non-nil error). -/
def goParseInt (s : String) : Int × Bool :=
  let core : Bool → List Char → Int × Bool := fun neg ds =>
    match digitsVal? ds with
    | none => (0, false)
    | some n =>
      if neg then
        if (n : Int) ≤ int64Max + 1 then (-(n : Int), true) else (-(int64Max + 1), false)
      else
        if (n : Int) ≤ int64Max then ((n : Int), true) else (int64Max, false)
  match s.toList with
  | '+' :: rest => core false rest
  | '-' :: rest => core true rest
  | cs => core false cs

/-- The parsed monitor ini file as seen by processMonitorFile: the
General section's optional poll key value, the Monitor section keys and
the Queries section keys (each with its remote outcome oracle); none
models a missing section (a GetSection error). -/
structure MonIni where
  general : Option (Option String)
  monitorSec : Option (List (String × String))
  queriesSec : Option (List SearchReq)
deriving DecidableEq

/-- Result of one processMonitorFile call: fatal models zerolog
log.Fatal, which calls os.Exit, on an unreadable ini file (main.go 172);
done st is every other path, all of which return normally. -/
inductive ReloadOutcome where
  | fatal : ReloadOutcome
  | done (st : ServerState) : ReloadOutcome
deriving DecidableEq

/-- processMonitorFile (main.go 168-224).  The input is none when
ini.Load fails.  Control flow mirrors the source: a missing General
section returns early; a missing poll key only logs and continues; a
present poll key is parsed with Key.Int whose value is assigned to
monitorPollDelay before the error check, so a malformed value leaves
pollDelay at the parse's returned value (0 on a syntax error) and
returns early; a parsed value below 60 is clamped to 60; the monitor map
is cleared and rebuilt from the Monitor section; finally the Queries
section is handed to processSearchQueries. -/
def processMonitorFile (ini : Option MonIni) (st : ServerState) : ReloadOutcome :=
  match ini with
  | none => ReloadOutcome.fatal
  | some cfg =>
    match cfg.general with
    | none => ReloadOutcome.done st
    | some pollKey =>
      let pollStep : ServerState × Bool :=
        match pollKey with
        | none => (st, true)
        | some v =>
          if (goParseInt v).2 = false then ({ st with pollDelay := (goParseInt v).1 }, false)
          else if (goParseInt v).1 < 60 then ({ st with pollDelay := 60 }, true)
          else ({ st with pollDelay := (goParseInt v).1 }, true)
      if pollStep.2 = false then ReloadOutcome.done pollStep.1
      else
        match cfg.monitorSec with
        | none => ReloadOutcome.done pollStep.1
        | some mkeys =>
          let st2 := { pollStep.1 with
            monitorQueries := mkeys.foldl (fun m kv => mapInsert m kv.1 kv.2) [] }
          match cfg.queriesSec with
          | none => ReloadOutcome.done st2
          | some reqs => ReloadOutcome.done (processSearchQueries reqs st2).1

/-- Post-reload state extractor: on the fatal path the in-memory state
is irrelevant (the process exits), so the prior state is returned. -/
def reloadState (ini : Option MonIni) (st : ServerState) : ServerState :=
  match processMonitorFile ini st with
  | ReloadOutcome.fatal => st
  | ReloadOutcome.done s => s

/-- unicode.IsSpace, the character set trimmed by strings.TrimSpace. -/
def isGoSpace (c : Char) : Bool :=
  decide (c = ' ' ∨ c = '\t' ∨ c = '\n' ∨ c = '\x0b' ∨ c = '\x0c' ∨ c = '\r' ∨
    c = '\x85' ∨ c = '\xa0' ∨ c.toNat = 0x1680 ∨
    (0x2000 ≤ c.toNat ∧ c.toNat ≤ 0x200a) ∨
    c.toNat = 0x2028 ∨ c.toNat = 0x2029 ∨ c.toNat = 0x202f ∨
    c.toNat = 0x205f ∨ c.toNat = 0x3000)

/-- strings.TrimSpace: surrounding white space removed. -/
def goTrimSpace (s : String) : String :=
  String.mk (((s.toList.dropWhile isGoSpace).reverse.dropWhile isGoSpace).reverse)

/-- The row loop of queryBazaar (main.go 352-374): each table row
contributes queryID followed by its trimmed cell texts; rows whose
result slice holds only the queryID (no cells) are skipped. -/
def scrapeRows (queryID : String) : List (List String) → List (List String)
  | [] => []
  | cells :: rest =>
    if (queryID :: cells.map goTrimSpace).length > 1 then
      (queryID :: cells.map goTrimSpace) :: scrapeRows queryID rest
    else scrapeRows queryID rest

/-- queryBazaar (main.go 327-378) over an explicit fetch oracle: none
models a failed LoadURL or QueryAll (each error path returns err and
both callers then discard the rows); some table is the located result
table, each row the list of its td texts. -/
def queryBazaar (queryID : String) (page : Option (List (List String))) :
    Except Unit (List (List String)) :=
  match page with
  | none => Except.error ()
  | some table => Except.ok (scrapeRows queryID table)

/-- deleteFromMonitorCSV (main.go 524-559): read all rows and write back
exactly those whose first column differs from queryID. -/
def deleteFromMonitorCSV : List (List String) → String → List (List String)
  | [], _ => []
  | row :: rest, queryID =>
    if row.getD 0 "" = queryID then deleteFromMonitorCSV rest queryID
    else row :: deleteFromMonitorCSV rest queryID

/-- writeMonitorCSV (main.go 501-521): append the data rows. -/
def writeMonitorCSV (store dataRows : List (List String)) : List (List String) :=
  store ++ dataRows

/-- One monitor item's slice of processMonitorItems (main.go 302-318):
the rows for the derived ID are deleted first, then the remote query
runs; on error the loop continues, leaving the store as the delete left
it; on success the fresh rows are appended. -/
def processMonitorItemStep (store : List (List String)) (queryID : String)
    (page : Option (List (List String))) : List (List String) :=
  let store1 := deleteFromMonitorCSV store queryID
  match queryBazaar queryID page with
  | Except.error _ => store1
  | Except.ok rows => writeMonitorCSV store1 rows

/-- Observation helper: the rows of a store whose first column equals
queryID. -/
def rowsFor : List (List String) → String → List (List String)
  | [], _ => []
  | row :: rest, queryID =>
    if row.getD 0 "" = queryID then row :: rowsFor rest queryID
    else rowsFor rest queryID

/-- The fixed base of the Bazaar search URL (main.go 382). -/
def lazUrlBase : String := "https://www.lazaruseq.com/Magelo/index.php?page=bazaar"

/-- UTF-8 bytes of a code point. -/
def utf8Bytes (n : Nat) : List Nat :=
  if n < 0x80 then [n]
  else if n < 0x800 then [0xc0 + n / 64, 0x80 + n % 64]
  else if n < 0x10000 then [0xe0 + n / 4096, 0x80 + n / 64 % 64, 0x80 + n % 64]
  else [0xf0 + n / 262144, 0x80 + n / 4096 % 64, 0x80 + n / 64 % 64, 0x80 + n % 64]

def hexDigitUpper (n : Nat) : Char :=
  if n < 10 then Char.ofNat (48 + n) else Char.ofNat (55 + n)

/-- net/url QueryEscape on one character: ASCII letters, digits and
the marks -_.~ stay, a space becomes +, and every other byte is
percent-encoded in upper-case hex. -/
def escapeChar (c : Char) : List Char :=
  if c.isAlphanum || c == '-' || c == '_' || c == '.' || c == '~' then [c]
  else if c == ' ' then ['+']
  else (utf8Bytes c.toNat).foldr
    (fun b acc => '%' :: hexDigitUpper (b / 16) :: hexDigitUpper (b % 16) :: acc) []

/-- net/url QueryEscape. -/
def queryEscape (s : String) : String :=
  String.mk (s.toList.foldr (fun c acc => escapeChar c ++ acc) [])

/-- One iteration of buildURL's switch (main.go 383-409): append the
parameter name for a recognized key followed by the escaped value; the
default case continues, appending nothing. -/
def buildURLStep (lazUrl : String) (term : SearchTerm) : String :=
  if term.Key = "Name" then lazUrl ++ "&item=" ++ queryEscape term.Val
  else if term.Key = "Class" then lazUrl ++ "&class=" ++ queryEscape term.Val
  else if term.Key = "Race" then lazUrl ++ "&race=" ++ queryEscape term.Val
  else if term.Key = "Stat" then lazUrl ++ "&stat=" ++ queryEscape term.Val
  else if term.Key = "Slot" then lazUrl ++ "&slot=" ++ queryEscape term.Val
  else if term.Key = "Aug" then lazUrl ++ "&aug_type=" ++ queryEscape term.Val
  else if term.Key = "Type" then lazUrl ++ "&type=" ++ queryEscape term.Val
  else if term.Key = "PriceMin" then lazUrl ++ "&pricemin=" ++ queryEscape term.Val
  else if term.Key = "PriceMax" then lazUrl ++ "&pricemax=" ++ queryEscape term.Val
  else if term.Key = "Direction" then lazUrl ++ "&direction=" ++ queryEscape term.Val
  else lazUrl

/-- buildURL (main.go 381-411). -/
def buildURL (searchTerms : List SearchTerm) : String :=
  searchTerms.foldl buildURLStep lazUrlBase

/-- The characters a single term contributes to the built URL: the
parameter name and escaped value for a key the switch recognizes,
nothing otherwise. -/
def termFragment (term : SearchTerm) : String :=
  if term.Key = "Name" then "&item=" ++ queryEscape term.Val
  else if term.Key = "Class" then "&class=" ++ queryEscape term.Val
  else if term.Key = "Race" then "&race=" ++ queryEscape term.Val
  else if term.Key = "Stat" then "&stat=" ++ queryEscape term.Val
  else if term.Key = "Slot" then "&slot=" ++ queryEscape term.Val
  else if term.Key = "Aug" then "&aug_type=" ++ queryEscape term.Val
  else if term.Key = "Type" then "&type=" ++ queryEscape term.Val
  else if term.Key = "PriceMin" then "&pricemin=" ++ queryEscape term.Val
  else if term.Key = "PriceMax" then "&pricemax=" ++ queryEscape term.Val
  else if term.Key = "Direction" then "&direction=" ++ queryEscape term.Val
  else ""

/-- Concatenation of the per-term fragments in input order. -/
def concatFragments : List SearchTerm → String
  | [] => ""
  | t :: ts => termFragment t ++ concatFragments ts

/-- Word characters of RE2's word class (ASCII letters, digits,
underscore). -/
def isWordChar (c : Char) : Bool := c.isAlphanum || c == '_'

/-- The value character class of reSearchTerms (main.go 40): word
characters, RE2 white space, and the three comparison characters. -/
def isTermValChar (c : Char) : Bool :=
  isWordChar c || c == ' ' || c == '\t' || c == '\n' || c == '\x0c' || c == '\r' ||
  c == '>' || c == '<' || c == '='

/-- One repetition of the group body of reSearchTerms (a word run, a
bar, a value run, both runs greedy and non-empty): the matched
characters and the remainder, or none. -/
def parseRep (cs : List Char) : Option (List Char × List Char) :=
  let w := cs.takeWhile isWordChar
  if w.isEmpty then none
  else
    match cs.drop w.length with
    | '|' :: cs2 =>
      let v := cs2.takeWhile isTermValChar
      if v.isEmpty then none
      else some (w ++ '|' :: v, cs2.drop v.length)
    | _ => none

/-- Greedy further repetitions of the group body. -/
def parseRepsAux : Nat → List Char → List Char × List Char
  | 0, cs => ([], cs)
  | fuel + 1, cs =>
    match parseRep cs with
    | none => ([], cs)
    | some (g, rest) =>
      (g ++ (parseRepsAux fuel rest).1, (parseRepsAux fuel rest).2)

/-- A whole-pattern match of reSearchTerms at the current position: the
capture group (one or more repetitions) and the remainder after the
optional trailing slash. -/
def parseGroup (cs : List Char) : Option (List Char × List Char) :=
  match parseRep cs with
  | none => none
  | some (g, rest) =>
    let more := parseRepsAux rest.length rest
    let rest2 :=
      match more.2 with
      | '/' :: r => r
      | r => r
    some (g ++ more.1, rest2)

/-- FindAllStringSubmatch over the term string: scan left to right,
taking a match where one starts, otherwise advancing one character. -/
def scanTermGroups : Nat → List Char → List (List Char)
  | 0, _ => []
  | _, [] => []
  | fuel + 1, c :: cs =>
    match parseGroup (c :: cs) with
    | some (g, rest) => g :: scanTermGroups fuel rest
    | none => scanTermGroups fuel cs

/-- strings.Split on the bar separator. -/
def splitOnBar : List Char → List (List Char)
  | [] => [[]]
  | c :: cs =>
    if c == '|' then [] :: splitOnBar cs
    else
      match splitOnBar cs with
      | [] => [[c]]
      | h :: t => (c :: h) :: t

/-- The (terms[0], terms[1]) pair of each regex match of a term string,
as computed at main.go 243-247 and 272-280. -/
def parseTermSegments (s : String) : List (String × String) :=
  (scanTermGroups s.toList.length s.toList).map (fun g =>
    (String.mk ((splitOnBar g).getD 0 []), String.mk ((splitOnBar g).getD 1 [])))

/-- The per-segment loop of processMonitorItems (main.go 278-300): the
running searchTerm is updated by Price segments (set Val) and Compare
segments (set Key per operator) and appended after every segment; an
unknown compare operator skips the append via continue; any other key
appends the running term unchanged. -/
def buildMonitorTermsAux (cur : SearchTerm) : List (String × String) → List SearchTerm
  | [] => []
  | seg :: rest =>
    if seg.1 = "Price" then
      ⟨cur.Key, seg.2⟩ :: buildMonitorTermsAux ⟨cur.Key, seg.2⟩ rest
    else if seg.1 = "Compare" then
      if seg.2 = "<" then
        ⟨"PriceMax", cur.Val⟩ :: buildMonitorTermsAux ⟨"PriceMax", cur.Val⟩ rest
      else if seg.2 = "<=" then
        ⟨"PriceMax", cur.Val⟩ :: buildMonitorTermsAux ⟨"PriceMax", cur.Val⟩ rest
      else if seg.2 = ">" then
        ⟨"PriceMin", cur.Val⟩ :: buildMonitorTermsAux ⟨"PriceMin", cur.Val⟩ rest
      else if seg.2 = ">=" then
        ⟨"PriceMin", cur.Val⟩ :: buildMonitorTermsAux ⟨"PriceMin", cur.Val⟩ rest
      else buildMonitorTermsAux cur rest
    else cur :: buildMonitorTermsAux cur rest

/-- The search terms a monitor item (name to term string) is queried
with: the Name term first (main.go 275), then the translated segments
starting from the zero-valued running term. -/
def monitorSearchTerms (itemName val : String) : List SearchTerm :=
  ⟨"Name", itemName⟩ :: buildMonitorTermsAux ⟨"", ""⟩ (parseTermSegments val)

/-- Well-formedness of a request batch's oracle: every successful
outcome's rows carry that request's ID in the first column, as
queryBazaar guarantees for the rows it returns. -/
def wfReq : SearchReq → Bool
  | (_, _, QueryResult.err) => true
  | (id, _, QueryResult.ok rows) => rows.all (fun r => r.getD 0 "" == id)

/-- Well-formedness of every request in a batch. -/
def wfReqs (reqs : List SearchReq) : Bool := reqs.all wfReq

/-- The row loop of queryBazaar keeps exactly the rows with at least one
cell, each as the queryID followed by the trimmed cell texts. -/
theorem scrapeRows_eq (id : String) (table : List (List String)) :
    scrapeRows id table
      = (table.filter (fun cells => !cells.isEmpty)).map
          (fun cells => id :: cells.map goTrimSpace) := by
  induction table with
  | nil => rfl
  | cons cells rest ih =>
    cases cells with
    | nil => simpa [scrapeRows, List.filter] using ih
    | cons c cs => simpa [scrapeRows, List.filter] using ih

/-- Every row queryBazaar returns carries the queryID in its first
column. -/
theorem scrapeRows_head (id : String) (table : List (List String)) :
    ∀ r ∈ scrapeRows id table, r.getD 0 "" = id := by
  induction table with
  | nil => intro r hr; cases hr
  | cons cells rest ih =>
    intro r hr
    by_cases hlen : (id :: cells.map goTrimSpace).length > 1
    · rw [scrapeRows, if_pos hlen] at hr
      rcases List.mem_cons.mp hr with hr | hr
      · subst hr; rfl
      · exact ih r hr
    · rw [scrapeRows, if_neg hlen] at hr
      exact ih r hr

theorem rowsFor_append (a b : List (List String)) (id : String) :
    rowsFor (a ++ b) id = rowsFor a id ++ rowsFor b id := by
  induction a with
  | nil => rfl
  | cons row rest ih =>
    rw [List.cons_append, rowsFor, rowsFor]
    by_cases h : row.getD 0 "" = id
    · rw [if_pos h, if_pos h, ih, List.cons_append]
    · rw [if_neg h, if_neg h, ih]

theorem delete_append (a b : List (List String)) (id : String) :
    deleteFromMonitorCSV (a ++ b) id
      = deleteFromMonitorCSV a id ++ deleteFromMonitorCSV b id := by
  induction a with
  | nil => rfl
  | cons row rest ih =>
    rw [List.cons_append, deleteFromMonitorCSV, deleteFromMonitorCSV]
    by_cases h : row.getD 0 "" = id
    · rw [if_pos h, if_pos h, ih]
    · rw [if_neg h, if_neg h, ih, List.cons_append]

theorem rowsFor_delete (s : List (List String)) (id : String) :
    rowsFor (deleteFromMonitorCSV s id) id = [] := by
  induction s with
  | nil => rfl
  | cons row rest ih =>
    rw [deleteFromMonitorCSV]
    by_cases h : row.getD 0 "" = id
    · rw [if_pos h]; exact ih
    · rw [if_neg h, rowsFor, if_neg h]; exact ih

theorem delete_delete (s : List (List String)) (id : String) :
    deleteFromMonitorCSV (deleteFromMonitorCSV s id) id = deleteFromMonitorCSV s id := by
  induction s with
  | nil => rfl
  | cons row rest ih =>
    rw [deleteFromMonitorCSV]
    by_cases h : row.getD 0 "" = id
    · rw [if_pos h]; exact ih
    · rw [if_neg h, deleteFromMonitorCSV, if_neg h, ih]

theorem rowsFor_of_all_eq (s : List (List String)) (id : String)
    (h : ∀ r ∈ s, r.getD 0 "" = id) : rowsFor s id = s := by
  induction s with
  | nil => rfl
  | cons row rest ih =>
    rw [rowsFor, if_pos (h row (by simp))]
    rw [ih (fun r hr => h r (by simp [hr]))]

theorem delete_of_all_eq (s : List (List String)) (id : String)
    (h : ∀ r ∈ s, r.getD 0 "" = id) : deleteFromMonitorCSV s id = [] := by
  induction s with
  | nil => rfl
  | cons row rest ih =>
    rw [deleteFromMonitorCSV, if_pos (h row (by simp))]
    exact ih (fun r hr => h r (by simp [hr]))

theorem rowsFor_of_all_ne (s : List (List String)) (id : String)
    (h : ∀ r ∈ s, r.getD 0 "" ≠ id) : rowsFor s id = [] := by
  induction s with
  | nil => rfl
  | cons row rest ih =>
    rw [rowsFor, if_neg (h row (by simp))]
    exact ih (fun r hr => h r (by simp [hr]))

/-- C7: for every successful scrape, each table row with at least one
cell yields exactly one output row, the requestID prepended to the
trimmed cell texts, in table order; rows with no cells are discarded; a
located table with no matching rows yields the empty row set with no
error.  In particular a table of two populated rows and one empty row
yields exactly two rows, each prefixed with the request ID. -/
theorem queryBazaar_scrape_rows_shape (id : String) (table : List (List String)) :
    queryBazaar id (some table)
      = Except.ok ((table.filter (fun cells => !cells.isEmpty)).map
          (fun cells => id :: cells.map goTrimSpace))
    ∧ queryBazaar "RID" (some [["A", "B"], [], [" C "]])
      = Except.ok [["RID", "A", "B"], ["RID", "C"]] :=
  ⟨congrArg Except.ok (scrapeRows_eq id table),
   congrArg Except.ok (by decide :
     scrapeRows "RID" [["A", "B"], [], [" C "]] = [["RID", "A", "B"], ["RID", "C"]])⟩

/-- C4: after a monitor polling step for an item whose remote query
succeeds, the store is the prior rows of other IDs followed by the
fresh rows; its rows for the item's ID are exactly the scraped rows, and
its rows for every other first column (the header row included) are
exactly those held before. -/
theorem monitor_success_step_exact_frame (store : List (List String)) (id : String)
    (table : List (List String)) :
    processMonitorItemStep store id (some table)
        = deleteFromMonitorCSV store id ++ scrapeRows id table
    ∧ rowsFor (processMonitorItemStep store id (some table)) id = scrapeRows id table
    ∧ deleteFromMonitorCSV (processMonitorItemStep store id (some table)) id
        = deleteFromMonitorCSV store id := by
  refine ⟨rfl, ?_, ?_⟩
  · show rowsFor (deleteFromMonitorCSV store id ++ scrapeRows id table) id = scrapeRows id table
    rw [rowsFor_append, rowsFor_delete, rowsFor_of_all_eq _ _ (scrapeRows_head id table)]
    rfl
  · show deleteFromMonitorCSV (deleteFromMonitorCSV store id ++ scrapeRows id table) id
        = deleteFromMonitorCSV store id
    rw [delete_append, delete_delete, delete_of_all_eq _ _ (scrapeRows_head id table)]
    simp

/-- C2 counterexample: the delete precedes the query, so when the remote
fetch fails the item's prior rows are already gone — the store does not
keep the rows it held before the item was processed. -/
theorem monitor_error_rows_deleted_cex :
    processMonitorItemStep
        [["QueryID", "Item", "Price", "Seller"], ["h1", "It", "10", "Bob"]] "h1" none
      = [["QueryID", "Item", "Price", "Seller"]]
    ∧ rowsFor [["QueryID", "Item", "Price", "Seller"], ["h1", "It", "10", "Bob"]] "h1"
      = [["h1", "It", "10", "Bob"]]
    ∧ rowsFor (processMonitorItemStep
        [["QueryID", "Item", "Price", "Seller"], ["h1", "It", "10", "Bob"]] "h1" none) "h1"
      = [] := by
  decide

/-- C2 amended: when the remote query for a monitor item errors, no rows
are written for it, and the rows of every other ID survive unchanged;
but because the invalidating delete runs before the query, the item's
own prior rows are already removed, so its ID is left with no rows until
the next successful cycle. -/
theorem monitor_error_step_preserves_other_ids (store : List (List String)) (id : String) :
    processMonitorItemStep store id none = deleteFromMonitorCSV store id
    ∧ rowsFor (processMonitorItemStep store id none) id = []
    ∧ deleteFromMonitorCSV (processMonitorItemStep store id none) id
        = deleteFromMonitorCSV store id :=
  ⟨rfl, rowsFor_delete store id, delete_delete store id⟩

theorem string_data_append (a b : String) : (a ++ b).data = a.data ++ b.data := rfl

theorem string_ext (a b : String) (h : a.data = b.data) : a = b := by
  cases a; cases b; cases h; rfl

theorem string_append_assoc (a b c : String) : a ++ b ++ c = a ++ (b ++ c) :=
  string_ext _ _ (by simp [string_data_append])

theorem string_append_empty (a : String) : a ++ "" = a :=
  string_ext _ _ (by simp [string_data_append])

/-- Each switch iteration of buildURL appends exactly the term's
fragment. -/
theorem buildURLStep_eq (acc : String) (t : SearchTerm) :
    buildURLStep acc t = acc ++ termFragment t := by
  rcases t with ⟨k, v⟩
  simp only [buildURLStep, termFragment]
  by_cases h1 : k = "Name"
  · rw [if_pos h1, if_pos h1]; exact string_append_assoc _ _ _
  rw [if_neg h1, if_neg h1]
  by_cases h2 : k = "Class"
  · rw [if_pos h2, if_pos h2]; exact string_append_assoc _ _ _
  rw [if_neg h2, if_neg h2]
  by_cases h3 : k = "Race"
  · rw [if_pos h3, if_pos h3]; exact string_append_assoc _ _ _
  rw [if_neg h3, if_neg h3]
  by_cases h4 : k = "Stat"
  · rw [if_pos h4, if_pos h4]; exact string_append_assoc _ _ _
  rw [if_neg h4, if_neg h4]
  by_cases h5 : k = "Slot"
  · rw [if_pos h5, if_pos h5]; exact string_append_assoc _ _ _
  rw [if_neg h5, if_neg h5]
  by_cases h6 : k = "Aug"
  · rw [if_pos h6, if_pos h6]; exact string_append_assoc _ _ _
  rw [if_neg h6, if_neg h6]
  by_cases h7 : k = "Type"
  · rw [if_pos h7, if_pos h7]; exact string_append_assoc _ _ _
  rw [if_neg h7, if_neg h7]
  by_cases h8 : k = "PriceMin"
  · rw [if_pos h8, if_pos h8]; exact string_append_assoc _ _ _
  rw [if_neg h8, if_neg h8]
  by_cases h9 : k = "PriceMax"
  · rw [if_pos h9, if_pos h9]; exact string_append_assoc _ _ _
  rw [if_neg h9, if_neg h9]
  by_cases h10 : k = "Direction"
  · rw [if_pos h10, if_pos h10]; exact string_append_assoc _ _ _
  rw [if_neg h10, if_neg h10]
  exact (string_append_empty _).symm

theorem buildURL_foldl (terms : List SearchTerm) (acc : String) :
    terms.foldl buildURLStep acc = acc ++ concatFragments terms := by
  induction terms generalizing acc with
  | nil => rw [List.foldl_nil, concatFragments, string_append_empty]
  | cons t ts ih =>
    rw [List.foldl_cons, concatFragments, ih, buildURLStep_eq, string_append_assoc]

/-- C3 counterexample: terms with keys Price and Compare — both inside
the claim's recognized set — contribute zero characters to the built
URL, while a Name term does contribute its parameter and escaped
value. -/
theorem buildURL_price_compare_ignored_cex :
    buildURL [⟨"Price", "1000"⟩] = buildURL []
    ∧ buildURL [⟨"Compare", "<"⟩] = buildURL []
    ∧ buildURL [⟨"Price", "1000"⟩] = lazUrlBase
    ∧ buildURL [⟨"Name", "Fabled Earthshaker"⟩] = lazUrlBase ++ "&item=Fabled+Earthshaker" := by
  refine ⟨by decide, by decide, by decide, by decide⟩

/-- C3 amended: the built URL is the fixed base followed by one fragment
per input term in input order, where a term whose key is one of the ten
switch cases (Name, Class, Race, Stat, Slot, Aug, Type, PriceMin,
PriceMax, Direction) contributes exactly its parameter name followed by
the percent-encoded value, and every other key — Compare and Price
included — contributes the empty fragment, with no error. -/
theorem buildURL_fragment_decomposition (terms : List SearchTerm) :
    buildURL terms = lazUrlBase ++ concatFragments terms :=
  buildURL_foldl terms lazUrlBase

/-- C8: the monitor term translation maps a Compare segment's operator
to the translator keys PriceMax (for the two less-than operators) and
PriceMin (for the two greater-than operators), keeping the running
value, and a Price segment sets the running value; in particular the
term string with Price 1000 and Compare less-than derives a PriceMax
bound of 1000, and with Compare greater-than a PriceMin bound of
1000. -/
theorem monitor_compare_terms_translation :
    (∀ (cur : SearchTerm) (rest : List (String × String)),
      buildMonitorTermsAux cur (("Compare", "<") :: rest)
        = ⟨"PriceMax", cur.Val⟩ :: buildMonitorTermsAux ⟨"PriceMax", cur.Val⟩ rest)
    ∧ (∀ (cur : SearchTerm) (rest : List (String × String)),
      buildMonitorTermsAux cur (("Compare", "<=") :: rest)
        = ⟨"PriceMax", cur.Val⟩ :: buildMonitorTermsAux ⟨"PriceMax", cur.Val⟩ rest)
    ∧ (∀ (cur : SearchTerm) (rest : List (String × String)),
      buildMonitorTermsAux cur (("Compare", ">") :: rest)
        = ⟨"PriceMin", cur.Val⟩ :: buildMonitorTermsAux ⟨"PriceMin", cur.Val⟩ rest)
    ∧ (∀ (cur : SearchTerm) (rest : List (String × String)),
      buildMonitorTermsAux cur (("Compare", ">=") :: rest)
        = ⟨"PriceMin", cur.Val⟩ :: buildMonitorTermsAux ⟨"PriceMin", cur.Val⟩ rest)
    ∧ (∀ (cur : SearchTerm) (rest : List (String × String)) (v : String),
      buildMonitorTermsAux cur (("Price", v) :: rest)
        = ⟨cur.Key, v⟩ :: buildMonitorTermsAux ⟨cur.Key, v⟩ rest)
    ∧ ⟨"PriceMax", "1000"⟩ ∈ monitorSearchTerms "Velium Shard" "Price|1000/Compare|<"
    ∧ ⟨"PriceMin", "1000"⟩ ∈ monitorSearchTerms "Velium Shard" "Price|1000/Compare|>" := by
  refine ⟨fun cur rest => rfl, fun cur rest => rfl, fun cur rest => rfl,
    fun cur rest => rfl, fun cur rest v => rfl, by decide, by decide⟩

theorem mapGetD_insert_self (m : List (String × String)) (k v d : String) :
    mapGetD (mapInsert m k v) k d = v := by
  induction m with
  | nil => simp [mapInsert, mapGetD]
  | cons p rest ih =>
    by_cases h : p.1 = k
    · rw [mapInsert, if_pos h, mapGetD, if_pos rfl]
    · rw [mapInsert, if_neg h, mapGetD, if_neg h]; exact ih

theorem mapGetD_insert_ne (m : List (String × String)) (k v j d : String) (h : j ≠ k) :
    mapGetD (mapInsert m k v) j d = mapGetD m j d := by
  induction m with
  | nil => simp [mapInsert, mapGetD, Ne.symm h]
  | cons p rest ih =>
    by_cases hp : p.1 = k
    · simp [mapInsert, mapGetD, hp, Ne.symm h]
    · simp [mapInsert, mapGetD, hp, ih]

theorem psqStep_searchQueries (st : ServerState) (j c : String) (res : QueryResult) :
    (psqStep st j c res).searchQueries = mapInsert st.searchQueries j c := by
  cases res <;> rfl

theorem psqStep_searchStore (st : ServerState) (j c : String) (res : QueryResult) :
    (psqStep st j c res).searchStore = st.searchStore ++ resRows res := by
  cases res
  · exact (List.append_nil _).symm
  · rfl

theorem psqStep_pollDelay (st : ServerState) (j c : String) (res : QueryResult) :
    (psqStep st j c res).pollDelay = st.pollDelay := by
  cases res <;> rfl

theorem resRows_head (j c : String) (res : QueryResult) (h : wfReq (j, c, res) = true) :
    ∀ r ∈ resRows res, r.getD 0 "" = j := by
  cases res with
  | err => intro r hr; cases hr
  | ok rows =>
    intro r hr
    exact beq_iff_eq.mp (List.all_eq_true.mp h r hr)

theorem wfReqs_cons (x : SearchReq) (rest : List SearchReq) (h : wfReqs (x :: rest) = true) :
    wfReq x = true ∧ wfReqs rest = true := by
  simpa [wfReqs, List.all_cons, Bool.and_eq_true] using h

/-- Once the dedup map holds a non-empty value for an ID, a batch of
search requests never queries that ID again and never changes its
cache entry. -/
theorem psq_cache_blocked (reqs : List SearchReq) (st : ServerState) (id : String)
    (h : mapGetD st.searchQueries id "" ≠ "") :
    mapGetD ((processSearchQueries reqs st).1).searchQueries id ""
        = mapGetD st.searchQueries id ""
    ∧ id ∉ (processSearchQueries reqs st).2 := by
  induction reqs generalizing st with
  | nil => exact ⟨rfl, List.not_mem_nil id⟩
  | cons req rest ih =>
    rcases req with ⟨j, c, res⟩
    by_cases hj : mapGetD st.searchQueries j "" = ""
    · have hne : id ≠ j := fun he => h (by rw [he]; exact hj)
      rw [processSearchQueries, if_neg (not_not_intro hj)]
      have hblock : mapGetD (psqStep st j c res).searchQueries id "" ≠ "" := by
        rw [psqStep_searchQueries, mapGetD_insert_ne _ _ _ _ _ hne]; exact h
      have ih2 := ih (psqStep st j c res) hblock
      refine ⟨?_, ?_⟩
      · rw [ih2.1, psqStep_searchQueries, mapGetD_insert_ne _ _ _ _ _ hne]
      · intro hmem
        rcases List.mem_cons.mp hmem with he | hm
        · exact hne he
        · exact ih2.2 hm
    · rw [processSearchQueries, if_pos hj]
      exact ih st h

/-- Once the dedup map holds a non-empty value for an ID, a batch of
well-formed search requests never writes a row carrying that ID. -/
theorem psq_rowsFor_blocked (reqs : List SearchReq) (st : ServerState) (id : String)
    (h : mapGetD st.searchQueries id "" ≠ "") (hwf : wfReqs reqs = true) :
    rowsFor ((processSearchQueries reqs st).1).searchStore id
      = rowsFor st.searchStore id := by
  induction reqs generalizing st with
  | nil => rfl
  | cons req rest ih =>
    rcases req with ⟨j, c, res⟩
    obtain ⟨hwf1, hwf2⟩ := wfReqs_cons _ _ hwf
    by_cases hj : mapGetD st.searchQueries j "" = ""
    · have hne : id ≠ j := fun he => h (by rw [he]; exact hj)
      rw [processSearchQueries, if_neg (not_not_intro hj)]
      have hblock : mapGetD (psqStep st j c res).searchQueries id "" ≠ "" := by
        rw [psqStep_searchQueries, mapGetD_insert_ne _ _ _ _ _ hne]; exact h
      rw [ih (psqStep st j c res) hblock hwf2, psqStep_searchStore, rowsFor_append,
        rowsFor_of_all_ne (resRows res) id (fun r hr => by
          rw [resRows_head j c res hwf1 r hr]; exact fun he => hne he.symm),
        List.append_nil]
    · rw [processSearchQueries, if_pos hj]
      exact ih st h hwf2

/-- A batch of search requests only ever appends to the search store. -/
theorem psq_searchStore_extends (reqs : List SearchReq) (st : ServerState) :
    ∃ t, ((processSearchQueries reqs st).1).searchStore = st.searchStore ++ t := by
  induction reqs generalizing st with
  | nil => exact ⟨[], (List.append_nil _).symm⟩
  | cons req rest ih =>
    rcases req with ⟨j, c, res⟩
    by_cases hj : mapGetD st.searchQueries j "" = ""
    · rw [processSearchQueries, if_neg (not_not_intro hj)]
      obtain ⟨t, ht⟩ := ih (psqStep st j c res)
      exact ⟨resRows res ++ t, by rw [ht, psqStep_searchStore, List.append_assoc]⟩
    · rw [processSearchQueries, if_pos hj]
      exact ih st

/-- A batch of search requests never changes the poll delay. -/
theorem psq_pollDelay (reqs : List SearchReq) (st : ServerState) :
    ((processSearchQueries reqs st).1).pollDelay = st.pollDelay := by
  induction reqs generalizing st with
  | nil => rfl
  | cons req rest ih =>
    rcases req with ⟨j, c, res⟩
    by_cases hj : mapGetD st.searchQueries j "" = ""
    · rw [processSearchQueries, if_neg (not_not_intro hj)]
      rw [ih (psqStep st j c res), psqStep_pollDelay]
    · rw [processSearchQueries, if_pos hj]
      exact ih st

/-- C5 counterexample: two requests with identical IDs and identical raw
content — here the empty string — submitted in the same reload are BOTH
queried: the dedup guard treats the recorded empty content as not yet
seen, so the second is not skipped. -/
theorem search_dedup_empty_content_requeried_cex :
    (processSearchQueries [("s", "", QueryResult.err), ("s", "", QueryResult.err)]
        initialState).2 = ["s", "s"] := by
  decide

/-- C5 amended: for requests whose raw content is non-empty, a remote
query for an ID is issued at most once for the process lifetime: with
two identical ID and content requests in one reload, the second is
skipped as a dedup hit, and the ID is never queried in any later
batch. -/
theorem search_query_at_most_once_nonempty (st : ServerState) (id c : String)
    (res res2 : QueryResult) (rest later : List SearchReq) (hc : c ≠ "") :
    ((processSearchQueries ((id, c, res) :: (id, c, res2) :: rest) st).2
      ++ (processSearchQueries later
            (processSearchQueries ((id, c, res) :: (id, c, res2) :: rest) st).1).2).count id
      ≤ 1 := by
  by_cases h0 : mapGetD st.searchQueries id "" = ""
  · rw [processSearchQueries, if_neg (not_not_intro h0)]
    have hmark : mapGetD (psqStep st id c res).searchQueries id "" ≠ "" := by
      rw [psqStep_searchQueries, mapGetD_insert_self]; exact hc
    have hA := psq_cache_blocked ((id, c, res2) :: rest) (psqStep st id c res) id hmark
    have hB := psq_cache_blocked later
      (processSearchQueries ((id, c, res2) :: rest) (psqStep st id c res)).1 id
      (by rw [hA.1]; exact hmark)
    have h2 : ((id :: (processSearchQueries ((id, c, res2) :: rest) (psqStep st id c res)).2)
        ++ (processSearchQueries later
            (processSearchQueries ((id, c, res2) :: rest) (psqStep st id c res)).1).2).count id
        = 1 := by
      simp [List.count_append, List.count_cons_self,
        List.count_eq_zero.mpr hA.2, List.count_eq_zero.mpr hB.2]
    exact le_of_eq h2
  · rw [processSearchQueries, if_pos h0, processSearchQueries, if_pos h0]
    have hA := psq_cache_blocked rest st id h0
    have hB := psq_cache_blocked later (processSearchQueries rest st).1 id
      (by rw [hA.1]; exact h0)
    have h2 : ((processSearchQueries rest st).2
        ++ (processSearchQueries later (processSearchQueries rest st).1).2).count id = 0 := by
      simp [List.count_append, List.count_eq_zero.mpr hA.2, List.count_eq_zero.mpr hB.2]
    rw [h2]
    exact Nat.zero_le 1

theorem search_query_at_most_once_nonempty_witness :
    ((processSearchQueries [("d", "x", QueryResult.err), ("d", "x", QueryResult.err)]
        initialState).2
      ++ (processSearchQueries []
            (processSearchQueries [("d", "x", QueryResult.err), ("d", "x", QueryResult.err)]
              initialState).1).2).count "d" ≤ 1 :=
  search_query_at_most_once_nonempty initialState "d" "x" QueryResult.err QueryResult.err
    [] [] (by decide)

/-- C10 counterexample: a failed request with empty raw content IS
retried: its ID is queried again in the next reload, because the
recorded empty content is indistinguishable from an absent entry. -/
theorem failed_search_empty_content_retried_cex :
    (processSearchQueries [("q", "", QueryResult.err)] initialState).2 = ["q"]
    ∧ (processSearchQueries [("q", "", QueryResult.err)]
        (processSearchQueries [("q", "", QueryResult.err)] initialState).1).2 = ["q"]
    ∧ mapGetD ((processSearchQueries [("q", "", QueryResult.err)] initialState).1).searchQueries
        "q" "" = "" := by
  decide

/-- C10 amended: for a failed search request with non-empty raw content,
the dedup cache keeps the ID mapped to that content (it is marked seen
before the query is issued and the search cache is never cleared), so
the ID is skipped in every later well-formed batch, no rows for it are
ever written, and the failed request is never retried. -/
theorem failed_search_never_retried_nonempty (st : ServerState) (id c : String)
    (rest later : List SearchReq) (hc : c ≠ "")
    (hfresh : mapGetD st.searchQueries id "" = "")
    (hwf1 : wfReqs rest = true) (hwf2 : wfReqs later = true) :
    mapGetD ((processSearchQueries ((id, c, QueryResult.err) :: rest) st).1).searchQueries
        id "" = c
    ∧ mapGetD ((processSearchQueries later
        (processSearchQueries ((id, c, QueryResult.err) :: rest) st).1).1).searchQueries
        id "" = c
    ∧ id ∉ (processSearchQueries later
        (processSearchQueries ((id, c, QueryResult.err) :: rest) st).1).2
    ∧ rowsFor ((processSearchQueries later
        (processSearchQueries ((id, c, QueryResult.err) :: rest) st).1).1).searchStore id
      = rowsFor st.searchStore id := by
  rw [processSearchQueries, if_neg (not_not_intro hfresh)]
  have hSc : mapGetD (psqStep st id c QueryResult.err).searchQueries id "" = c := by
    rw [psqStep_searchQueries, mapGetD_insert_self]
  have hmark : mapGetD (psqStep st id c QueryResult.err).searchQueries id "" ≠ "" := by
    rw [hSc]; exact hc
  have hA := psq_cache_blocked rest (psqStep st id c QueryResult.err) id hmark
  have hArows := psq_rowsFor_blocked rest (psqStep st id c QueryResult.err) id hmark hwf1
  have hAmark : mapGetD ((processSearchQueries rest
      (psqStep st id c QueryResult.err)).1).searchQueries id "" ≠ "" := by
    rw [hA.1]; exact hmark
  have hB := psq_cache_blocked later
    (processSearchQueries rest (psqStep st id c QueryResult.err)).1 id hAmark
  have hBrows := psq_rowsFor_blocked later
    (processSearchQueries rest (psqStep st id c QueryResult.err)).1 id hAmark hwf2
  refine ⟨hA.1.trans hSc, hB.1.trans (hA.1.trans hSc), hB.2, ?_⟩
  exact hBrows.trans hArows

theorem failed_search_never_retried_nonempty_witness :
    mapGetD ((processSearchQueries [("q", "x", QueryResult.err)] initialState).1).searchQueries
        "q" "" = "x"
    ∧ mapGetD ((processSearchQueries []
        (processSearchQueries [("q", "x", QueryResult.err)] initialState).1).1).searchQueries
        "q" "" = "x"
    ∧ "q" ∉ (processSearchQueries []
        (processSearchQueries [("q", "x", QueryResult.err)] initialState).1).2
    ∧ rowsFor ((processSearchQueries []
        (processSearchQueries [("q", "x", QueryResult.err)] initialState).1).1).searchStore "q"
      = rowsFor initialState.searchStore "q" :=
  failed_search_never_retried_nonempty initialState "q" "x" [] [] (by decide) rfl rfl rfl

theorem isPrefixOf_append (a b : List (List String)) : a.isPrefixOf (a ++ b) = true := by
  induction a with
  | nil => simp [List.isPrefixOf]
  | cons x xs ih => simp [List.isPrefixOf, ih]

/-- C1 counterexample: two successive reloads, each with one fresh
search request, leave the search store holding the header plus the rows
of BOTH reloads — the store is reset only at startup, never on reload,
so the first reload's row survives the second reload. -/
theorem searchStore_not_reset_on_reload_cex :
    (reloadState
        (some ⟨some none, some [], some [("b", "y", QueryResult.ok [["b", "It", "2", "S"]])]⟩)
        (reloadState
          (some ⟨some none, some [], some [("a", "x", QueryResult.ok [["a", "It", "1", "S"]])]⟩)
          initialState)).searchStore
      = [["QueryID", "Item", "Price", "Seller"], ["a", "It", "1", "S"], ["b", "It", "2", "S"]]
    ∧ ["a", "It", "1", "S"] ∈ (reloadState
        (some ⟨some none, some [], some [("b", "y", QueryResult.ok [["b", "It", "2", "S"]])]⟩)
        (reloadState
          (some ⟨some none, some [], some [("a", "x", QueryResult.ok [["a", "It", "1", "S"]])]⟩)
          initialState)).searchStore := by
  decide

/-- C1 amended: the search store is truncated and rewritten with the
header exactly once, at process startup; a configuration reload never
resets it — every reload that returns normally only appends rows, so
the prior store contents (rows from earlier reloads included) survive
as a prefix. -/
theorem searchStore_append_only_across_reloads (cfg : MonIni) (st st2 : ServerState)
    (h : processMonitorFile (some cfg) st = ReloadOutcome.done st2) :
    st.searchStore.isPrefixOf st2.searchStore = true
    ∧ initialState.searchStore = [csvHeader] := by
  refine ⟨?_, rfl⟩
  have hext : ∃ t, st2.searchStore = st.searchStore ++ t := by
    rcases cfg with ⟨g, ms, qs⟩
    cases g with
    | none =>
      simp [processMonitorFile] at h
      subst h
      exact ⟨[], (List.append_nil _).symm⟩
    | some pollKey =>
      cases pollKey with
      | none =>
        cases ms with
        | none =>
          simp [processMonitorFile] at h
          subst h
          exact ⟨[], (List.append_nil _).symm⟩
        | some mkeys =>
          cases qs with
          | none =>
            simp [processMonitorFile] at h
            subst h
            exact ⟨[], (List.append_nil _).symm⟩
          | some reqs =>
            simp [processMonitorFile] at h
            subst h
            exact psq_searchStore_extends reqs _
      | some v =>
        by_cases hv : (goParseInt v).2 = false
        · simp [processMonitorFile, hv] at h
          subst h
          exact ⟨[], (List.append_nil _).symm⟩
        · by_cases hlt : (goParseInt v).1 < 60
          · cases ms with
            | none =>
              simp [processMonitorFile, hv, hlt] at h
              subst h
              exact ⟨[], (List.append_nil _).symm⟩
            | some mkeys =>
              cases qs with
              | none =>
                simp [processMonitorFile, hv, hlt] at h
                subst h
                exact ⟨[], (List.append_nil _).symm⟩
              | some reqs =>
                simp [processMonitorFile, hv, hlt] at h
                subst h
                exact psq_searchStore_extends reqs _
          · cases ms with
            | none =>
              simp [processMonitorFile, hv, hlt] at h
              subst h
              exact ⟨[], (List.append_nil _).symm⟩
            | some mkeys =>
              cases qs with
              | none =>
                simp [processMonitorFile, hv, hlt] at h
                subst h
                exact ⟨[], (List.append_nil _).symm⟩
              | some reqs =>
                simp [processMonitorFile, hv, hlt] at h
                subst h
                exact psq_searchStore_extends reqs _
  obtain ⟨t, ht⟩ := hext
  rw [ht]
  exact isPrefixOf_append _ _

theorem searchStore_append_only_across_reloads_witness :
    initialState.searchStore.isPrefixOf initialState.searchStore = true
    ∧ initialState.searchStore = [csvHeader] :=
  searchStore_append_only_across_reloads ⟨some none, some [], some []⟩
    initialState initialState (by decide)

/-- C6 counterexample: a malformed poll-delay value makes the reload
abort with the in-memory poll delay overwritten to 0 — neither the
prior value 600 nor the floor 60 is retained — and an unreadable
configuration file is a fatal log (the process exits) rather than an
abort that keeps running. -/
theorem reload_config_error_behavior_cex :
    processMonitorFile (some ⟨some (some "abc"), none, none⟩) initialState
      = ReloadOutcome.done { initialState with pollDelay := 0 }
    ∧ initialState.pollDelay = 600
    ∧ (0 : Int) ≠ 600
    ∧ (0 : Int) ≠ 60
    ∧ processMonitorFile none initialState = ReloadOutcome.fatal := by
  decide

/-- C6 amended: an unreadable configuration file terminates the process
(zerolog Fatal); a malformed poll-delay value is logged and aborts the
reload before the monitor set or search queries are touched — the prior
monitor set, search cache and stores are retained — but the in-memory
poll delay is overwritten with the failed parse's returned value (0 for
a syntax error), not the previous or floor value. -/
theorem reload_malformed_delay_and_unreadable (cfg : MonIni) (st : ServerState) (v : String)
    (hg : cfg.general = some (some v)) (hbad : (goParseInt v).2 = false) :
    processMonitorFile (some cfg) st
        = ReloadOutcome.done { st with pollDelay := (goParseInt v).1 }
    ∧ processMonitorFile none st = ReloadOutcome.fatal := by
  constructor
  · rcases cfg with ⟨g, ms, qs⟩
    simp only [MonIni.general] at hg
    subst hg
    simp [processMonitorFile, hbad]
  · rfl

theorem reload_malformed_delay_and_unreadable_witness :
    processMonitorFile (some ⟨some (some "zzz"), none, none⟩) initialState
        = ReloadOutcome.done { initialState with pollDelay := 0 }
    ∧ processMonitorFile none initialState = ReloadOutcome.fatal :=
  reload_malformed_delay_and_unreadable ⟨some (some "zzz"), none, none⟩
    initialState "zzz" rfl (by decide)

/-- C9: when the poll-delay key parses as an integer, the reload returns
normally and the stored poll delay is the configured value clamped to a
minimum of 60: values below 60 become 60, all others are kept. -/
theorem pollDelay_clamped_min60 (cfg : MonIni) (st : ServerState) (v : String) (n : Int)
    (hg : cfg.general = some (some v)) (hp : goParseInt v = (n, true)) :
    processMonitorFile (some cfg) st = ReloadOutcome.done (reloadState (some cfg) st)
    ∧ (reloadState (some cfg) st).pollDelay = (if n < 60 then 60 else n) := by
  rcases cfg with ⟨g, ms, qs⟩
  simp only [MonIni.general] at hg
  subst hg
  have hex : ∃ s, processMonitorFile (some ⟨some (some v), ms, qs⟩) st
      = ReloadOutcome.done s := by
    by_cases hlt : n < 60 <;> cases ms <;> cases qs <;>
      exact ⟨_, by simp [processMonitorFile, hp, hlt]; rfl⟩
  obtain ⟨s, hs⟩ := hex
  have hrs : reloadState (some ⟨some (some v), ms, qs⟩) st = s := by
    simp only [reloadState, hs]
  have hpd : s.pollDelay = (if n < 60 then 60 else n) := by
    by_cases hlt : n < 60
    · cases ms with
      | none =>
        simp [processMonitorFile, hp, hlt] at hs
        rw [← hs]
        simp [hlt]
      | some mkeys =>
        cases qs with
        | none =>
          simp [processMonitorFile, hp, hlt] at hs
          rw [← hs]
          simp [hlt]
        | some reqs =>
          simp [processMonitorFile, hp, hlt] at hs
          rw [← hs]
          simp [hlt, psq_pollDelay]
    · cases ms with
      | none =>
        simp [processMonitorFile, hp, hlt] at hs
        rw [← hs]
        simp [hlt]
      | some mkeys =>
        cases qs with
        | none =>
          simp [processMonitorFile, hp, hlt] at hs
          rw [← hs]
          simp [hlt]
        | some reqs =>
          simp [processMonitorFile, hp, hlt] at hs
          rw [← hs]
          simp [hlt, psq_pollDelay]
  rw [hrs]
  exact ⟨hs, hpd⟩

theorem pollDelay_clamped_min60_witness :
    processMonitorFile (some ⟨some (some "45"), none, none⟩) initialState
        = ReloadOutcome.done
            (reloadState (some ⟨some (some "45"), none, none⟩) initialState)
    ∧ (reloadState (some ⟨some (some "45"), none, none⟩) initialState).pollDelay
        = (if (45 : Int) < 60 then 60 else 45) :=
  pollDelay_clamped_min60 ⟨some (some "45"), none, none⟩ initialState "45" 45 rfl (by decide)

end BazMon
